import Mathlib

/-!
Shallow embedding of the Fibonacci halo2 example circuit (`src/example1.rs`).

The repository contains a single circuit built on the `halo2_proofs` library:
`FiboChip::configure` declares three advice columns, one selector and one gate
`s * (a + b - c)`; `FiboChip::assign_first_row` / `FiboChip::assign_row`
populate rows; `FiboCircuit::synthesize` runs the first row once and the loop
`for _i in 3..10`; `main` runs `MockProver::run` with `k = 4` over the pasta
field `Fp` and asserts satisfaction.

The chip and circuit functions below are translated from the source file.
The `halo2_proofs` machinery itself (constraint-system builder, the
`SimpleFloorPlanner` layouter, `MockProver`'s trace and satisfiability check)
is not part of the repository's sources, so it is modelled from the spec's
description of the Schema Builder, Trace/Region model and Satisfiability
Checker, matching the library's documented behaviour.

The source bounds the field parameter by `Field`; only `+`, `-`, `*`, `0`, `1`
and equality are used, so the embedding is stated over any `CommRing` with
decidable equality (every field the source can instantiate is one).
-/

namespace FiboSpec

/-- Outcome classification of a failed assignment call: a Rust `panic!`
(`Option::unwrap` on `None` aborts the process), the halo2 `Error::Synthesis`
value returned through `Result`, or `Error::ColumnNotInPermutation` raised
when a copy constraint touches a column without equality enabled. -/
inductive RunError where
  | panic
  | synthesis
  | notInPermutation
deriving DecidableEq, Repr

/-- Modelled from the spec: symbolic gate expression tree of the Schema
Builder ({ColumnQuery, Constant, Add, Sub, Mul, Negate}); `selectorQ` is
`query_selector`, `adviceQ` is `query_advice` at a rotation
(`Rotation::cur()` is rotation `0`). -/
inductive Expr (F : Type) where
  | selectorQ (s : Nat)
  | adviceQ (col : Nat) (rot : Int)
  | const (c : F)
  | add (e₁ e₂ : Expr F)
  | sub (e₁ e₂ : Expr F)
  | mul (e₁ e₂ : Expr F)
  | neg (e : Expr F)
deriving DecidableEq, Repr

/-- A named gate: the constraint `expr == 0` wherever it is active. -/
structure Gate (F : Type) where
  name : String
  expr : Expr F
deriving DecidableEq, Repr

/-- Modelled from the spec: the Schema Builder state (`ConstraintSystem`).
Advice columns and selectors are numbered handles; `equality` records the
advice columns on which `enable_equality` was called; gates accumulate in
declaration order. -/
structure ConstraintSystem (F : Type) where
  numAdvice : Nat
  numSelectors : Nat
  equality : List Nat
  gates : List (Gate F)
deriving DecidableEq, Repr

/-- The empty constraint system handed to `configure`. -/
def emptyCS (F : Type) : ConstraintSystem F :=
  { numAdvice := 0, numSelectors := 0, equality := [], gates := [] }

/-- Embeds `meta.advice_column()`: returns a fresh advice column handle. -/
def adviceColumn {F : Type} (cs : ConstraintSystem F) : ConstraintSystem F × Nat :=
  ({ cs with numAdvice := cs.numAdvice + 1 }, cs.numAdvice)

/-- Embeds `meta.selector()`: returns a fresh selector handle. -/
def newSelector {F : Type} (cs : ConstraintSystem F) : ConstraintSystem F × Nat :=
  ({ cs with numSelectors := cs.numSelectors + 1 }, cs.numSelectors)

/-- Embeds `meta.enable_equality(col)`: marks an advice column as usable in copy
constraints (it joins the permutation argument). -/
def enableEquality {F : Type} (cs : ConstraintSystem F) (col : Nat) : ConstraintSystem F :=
  { cs with equality := cs.equality ++ [col] }

/-- Embeds `meta.create_gate(name, ...)`: appends the gate built by the closure. -/
def createGate {F : Type} (cs : ConstraintSystem F) (name : String) (e : Expr F) :
    ConstraintSystem F :=
  { cs with gates := cs.gates ++ [⟨name, e⟩] }

/-- Embeds `FiboConfig`: the three advice column handles and the selector handle. -/
structure FiboConfig where
  advice : Fin 3 → Nat
  selector : Nat
deriving DecidableEq, Repr

/-- Embeds `FiboChip::configure`: declares columns `a`, `b`, `c` and a selector,
enables equality on all three advice columns, and creates the single gate
named "add" with constraint `s * (a + b - c)` queried at `Rotation::cur()`. -/
def FiboChip.configure (F : Type) (cs : ConstraintSystem F) :
    ConstraintSystem F × FiboConfig :=
  let (cs, colA) := adviceColumn cs
  let (cs, colB) := adviceColumn cs
  let (cs, colC) := adviceColumn cs
  let (cs, sel) := newSelector cs
  let cs := enableEquality cs colA
  let cs := enableEquality cs colB
  let cs := enableEquality cs colC
  let cs := createGate cs "add"
    (Expr.mul (Expr.selectorQ sel)
      (Expr.sub (Expr.add (Expr.adviceQ colA 0) (Expr.adviceQ colB 0))
        (Expr.adviceQ colC 0)))
  (cs, { advice := ![colA, colB, colC], selector := sel })

/-- Modelled from the spec: a trace cell is unassigned until its single
write (`CellValue` in `MockProver`). -/
inductive CellValue (F : Type) where
  | unassigned
  | assigned (v : F)
deriving DecidableEq, Repr

/-- Modelled from the spec: the Trace — advice cell values by (column, row),
the selector activation pattern by (selector, row), and the raised copy
constraints as ((column, row), (column, row)) pairs. -/
structure Trace (F : Type) where
  advice : Nat → Nat → CellValue F
  selectors : Nat → Nat → Bool
  copies : List ((Nat × Nat) × (Nat × Nat))

/-- The empty trace: all cells unassigned, all selectors off, no copies. -/
def Trace.empty (F : Type) : Trace F :=
  { advice := fun _ _ => CellValue.unassigned
    selectors := fun _ _ => false
    copies := [] }

/-- Embeds `Selector::enable(region, offset)` landed at absolute row `row`. -/
def Trace.enableSelector {F : Type} (t : Trace F) (s row : Nat) : Trace F :=
  { t with selectors := fun s' r' => if s' = s ∧ r' = row then true else t.selectors s' r' }

/-- Raw single-cell advice write. -/
def Trace.writeAdvice {F : Type} (t : Trace F) (col row : Nat) (v : F) : Trace F :=
  { t with advice := fun c' r' => if c' = col ∧ r' = row then CellValue.assigned v else t.advice c' r' }

/-- Record a copy constraint between two (column, row) cells. -/
def Trace.addCopy {F : Type} (t : Trace F) (l r : Nat × Nat) : Trace F :=
  { t with copies := t.copies ++ [(l, r)] }

/-- Embeds the `AssignedCell` handle: the cell's column and row plus its `Value`
(`none` models `Value::unknown()`). -/
structure ACell (F : Type) where
  col : Nat
  row : Nat
  val : Option F
deriving DecidableEq, Repr

/-- Modelled from the spec: the `SimpleFloorPlanner` layouter state. Every
region in this circuit occupies one row in the same columns, so region `i`
is placed at absolute row `i`; `nextRow` is the next free row. -/
structure LayoutState (F : Type) where
  trace : Trace F
  nextRow : Nat

/-- The layouter state before synthesis. -/
def initState (F : Type) : LayoutState F :=
  { trace := Trace.empty F, nextRow := 0 }

/-- Modelled from the spec: `region.assign_advice` under `MockProver` — an
unknown `Value` cannot be realised into the trace and fails with
`Error::Synthesis` (the missing-witness propagation path); a known value is
written and its cell handle returned. -/
def assignAdvice {F : Type} (t : Trace F) (col row : Nat) (v : Option F) :
    Except RunError (Trace F × ACell F) :=
  match v with
  | none => Except.error RunError.synthesis
  | some x => Except.ok (t.writeAdvice col row x, ⟨col, row, some x⟩)

/-- Modelled from the spec: `AssignedCell::copy_advice` — assign the source
cell's value at the target cell, then constrain the two cells equal; both
columns must be equality-enabled (else `Error::ColumnNotInPermutation`). -/
def copyAdvice {F : Type} (eq : List Nat) (t : Trace F) (src : ACell F)
    (col row : Nat) : Except RunError (Trace F × ACell F) := do
  let (t, c) ← assignAdvice t col row src.val
  if src.col ∈ eq ∧ col ∈ eq then
    Except.ok (t.addCopy (src.col, src.row) (col, row), c)
  else
    Except.error RunError.notInPermutation

/-- Embeds `FiboChip::assign_first_row`: in a fresh one-row region, enable the
selector at region offset 0, write `a` (via `Value::known(a.unwrap())` —
a `None` seed panics), then `b` likewise, then `c = a + b` computed by
`a.and_then(|a| b.map(|b| a + b))` and unwrapped the same way; returns the
three cell handles. -/
def FiboChip.assignFirstRow {F : Type} [CommRing F] (cfg : FiboConfig)
    (st : LayoutState F) (a b : Option F) :
    Except RunError (LayoutState F × ACell F × ACell F × ACell F) := do
  let row := st.nextRow
  let t := st.trace.enableSelector cfg.selector row
  let av ← match a with
    | none => Except.error RunError.panic
    | some x => Except.ok x
  let (t, aCell) ← assignAdvice t (cfg.advice 0) row (some av)
  let bv ← match b with
    | none => Except.error RunError.panic
    | some x => Except.ok x
  let (t, bCell) ← assignAdvice t (cfg.advice 1) row (some bv)
  let cOpt := a.bind fun x => b.map fun y => x + y
  let cv ← match cOpt with
    | none => Except.error RunError.panic
    | some x => Except.ok x
  let (t, cCell) ← assignAdvice t (cfg.advice 2) row (some cv)
  Except.ok ({ trace := t, nextRow := row + 1 }, aCell, bCell, cCell)

/-- Embeds `FiboChip::assign_row`: in a fresh one-row region, enable the selector
at region offset 0, copy `prev_b` into the first advice column and `prev_c`
into the second (recording copy constraints), compute
`c = prev_b.value() + prev_c.value()` as a possibly-unknown `Value` and
assign it into the third column; returns the new `c` cell handle. -/
def FiboChip.assignRow {F : Type} [CommRing F] (cfg : FiboConfig) (eq : List Nat)
    (st : LayoutState F) (prevB prevC : ACell F) :
    Except RunError (LayoutState F × ACell F) := do
  let row := st.nextRow
  let t := st.trace.enableSelector cfg.selector row
  let (t, _) ← copyAdvice eq t prevB (cfg.advice 0) row
  let (t, _) ← copyAdvice eq t prevC (cfg.advice 1) row
  let cOpt := prevB.val.bind fun x => prevC.val.map fun y => x + y
  let (t, cCell) ← assignAdvice t (cfg.advice 2) row cOpt
  Except.ok ({ trace := t, nextRow := row + 1 }, cCell)

/-- The index list of the synthesis loop `for _i in 3..10`. -/
def loopRange : List Nat := List.range' 3 (10 - 3)

/-- The body of `synthesize`'s `for _i in 3..10` loop, one recursive step per
loop index: assign one more row from the loop-carried cells `prev_b`,
`prev_c`, then continue with `(prev_b, prev_c) := (prev_c, c)`. -/
def synthLoop {F : Type} [CommRing F] (cfg : FiboConfig) (eq : List Nat) :
    List Nat → LayoutState F → ACell F → ACell F → Except RunError (LayoutState F)
  | [], st, _, _ => Except.ok st
  | _ :: rest, st, prevB, prevC => do
      let (st', c) ← FiboChip.assignRow cfg eq st prevB prevC
      synthLoop cfg eq rest st' prevC c

/-- Embeds `FiboCircuit::synthesize`: assign the first row from the circuit's
optional seeds, then run the loop `for _i in 3..10` over `loopRange`. The
circuit-size parameter `k` does not appear: the iteration count is the
hardcoded `3..10`. -/
def FiboCircuit.synthesize {F : Type} [CommRing F] (cfg : FiboConfig)
    (eq : List Nat) (a b : Option F) (st : LayoutState F) :
    Except RunError (LayoutState F) := do
  let (st, _aCell, pb, pc) ← FiboChip.assignFirstRow cfg st a b
  synthLoop cfg eq loopRange st pb pc

/-- The constraint system produced by `FiboCircuit::configure`. -/
def fiboCS (F : Type) : ConstraintSystem F := (FiboChip.configure F (emptyCS F)).1

/-- The config produced by `FiboCircuit::configure`. -/
def fiboConfig (F : Type) : FiboConfig := (FiboChip.configure F (emptyCS F)).2

/-- Full synthesis run from the empty layouter state, as `MockProver::run`
performs it for a `FiboCircuit { a, b }`. -/
def runCircuit (F : Type) [CommRing F] (a b : Option F) :
    Except RunError (LayoutState F) :=
  FiboCircuit.synthesize (fiboConfig F) (fiboCS F).equality a b (initState F)

/-- Number of rows the run assigned: the final `nextRow` of a successful
run (each region occupies exactly one fresh row), `0` on failure. -/
def assignedRowCount {F : Type} (r : Except RunError (LayoutState F)) : Nat :=
  match r with
  | Except.ok st => st.nextRow
  | Except.error _ => 0

/-- Modelled from the spec: `MockProver`'s lazily-poisoned evaluation value —
`poison` stands for a value touching an unassigned cell; multiplication by a
known zero recovers a real zero, which is how gates on selector-off rows
pass even over unassigned advice cells. -/
inductive MVal (F : Type) where
  | poison
  | real (v : F)
deriving DecidableEq, Repr

/-- Lazy addition: any poison operand poisons the sum. -/
def MVal.add {F : Type} [Add F] : MVal F → MVal F → MVal F
  | MVal.real a, MVal.real b => MVal.real (a + b)
  | _, _ => MVal.poison

/-- Lazy negation. -/
def MVal.neg {F : Type} [Neg F] : MVal F → MVal F
  | MVal.real a => MVal.real (-a)
  | MVal.poison => MVal.poison

/-- Lazy subtraction: any poison operand poisons the difference. -/
def MVal.sub {F : Type} [Sub F] : MVal F → MVal F → MVal F
  | MVal.real a, MVal.real b => MVal.real (a - b)
  | _, _ => MVal.poison

/-- Lazy multiplication: a known zero factor yields a real zero even when
the other factor is poisoned. -/
def MVal.mul {F : Type} [Mul F] [Zero F] [DecidableEq F] : MVal F → MVal F → MVal F
  | MVal.real a, MVal.real b => MVal.real (a * b)
  | MVal.real x, MVal.poison => if x = 0 then MVal.real 0 else MVal.poison
  | MVal.poison, MVal.real x => if x = 0 then MVal.real 0 else MVal.poison
  | MVal.poison, MVal.poison => MVal.poison

/-- Modelled from the spec: evaluation of a gate expression over the trace
at a row; a selector query reads the activation pattern as `1`/`0`, an
advice query reads the cell at the rotated row, poisoning on unassigned. -/
def Expr.eval {F : Type} [CommRing F] [DecidableEq F] (t : Trace F) (row : Nat) :
    Expr F → MVal F
  | Expr.selectorQ s => MVal.real (if t.selectors s row then 1 else 0)
  | Expr.adviceQ c rot =>
      match t.advice c ((row : Int) + rot).toNat with
      | CellValue.assigned v => MVal.real v
      | CellValue.unassigned => MVal.poison
  | Expr.const c => MVal.real c
  | Expr.add e₁ e₂ => (Expr.eval t row e₁).add (Expr.eval t row e₂)
  | Expr.sub e₁ e₂ => (Expr.eval t row e₁).sub (Expr.eval t row e₂)
  | Expr.mul e₁ e₂ => (Expr.eval t row e₁).mul (Expr.eval t row e₂)
  | Expr.neg e => (Expr.eval t row e).neg

/-- A gate holds at a row when its expression evaluates to a real zero. -/
def gateHolds {F : Type} [CommRing F] [DecidableEq F] (t : Trace F) (row : Nat)
    (g : Gate F) : Bool :=
  match Expr.eval t row g.expr with
  | MVal.real v => decide (v = 0)
  | MVal.poison => false

/-- Modelled from the spec: the gate half of the Satisfiability Checker —
every gate of the schema holds on every one of the `n` rows of the trace. -/
def gatesPass {F : Type} [CommRing F] [DecidableEq F] (cs : ConstraintSystem F)
    (t : Trace F) (n : Nat) : Bool :=
  (List.range n).all fun row => cs.gates.all fun g => gateHolds t row g

/-- Modelled from the spec: the copy-constraint half of the Satisfiability
Checker — every declared pair of cells holds identical values. -/
def copiesPass {F : Type} [DecidableEq F] (t : Trace F) : Bool :=
  t.copies.all fun p => decide (t.advice p.1.1 p.1.2 = t.advice p.2.1 p.2.2)

/-- Modelled from the spec: the Satisfiability Checker's verdict
(`MockProver::verify` / `assert_satisfied`) over an `n`-row trace. -/
def verifyAll {F : Type} [CommRing F] [DecidableEq F] (cs : ConstraintSystem F)
    (t : Trace F) (n : Nat) : Bool :=
  gatesPass cs t n && copiesPass t

/-- Embeds `main`'s circuit size: `k = 4`, so the mock prover uses `2^k` rows. -/
def mainK : Nat := 4

/-- The pasta base-field modulus of `halo2_proofs::pasta::Fp`. -/
def pastaP : Nat :=
  0x40000000000000000000000000000000224698fc094cf91b992d30ed00000001

/-- The concrete field `Fp` used by `main`. -/
def Fp : Type := ZMod pastaP

instance : CommRing Fp := inferInstanceAs (CommRing (ZMod pastaP))

instance : DecidableEq Fp := inferInstanceAs (DecidableEq (ZMod pastaP))

/-- The `c`-column value sequence the circuit computes from seeds `a`, `b`:
`c 0 = a + b` on the first row, `c 1 = b + c 0` on the second, and
`c (n+2) = c n + c (n+1)` after that, mirroring how `assign_row` always adds
the previous row's first two cells. Used only to state the run's result. -/
def fibC {F : Type} [CommRing F] (a b : F) : Nat → F
  | 0 => a + b
  | 1 => b + (a + b)
  | n + 2 => fibC a b n + fibC a b (n + 1)

/-- The trace `synthesize` produces from known seeds `a`, `b`, written out as
the chronological chain of its trace operations (selector row by row, the
three advice writes per row, the two copy constraints per looped row). That
this is exactly the run's trace is proved definitionally in the theorems
below (`runCircuit F (some a) (some b) = Except.ok (expectedState a b)` holds
by `rfl`). -/
def expectedTrace {F : Type} [CommRing F] (a b : F) : Trace F :=
  let t := Trace.empty F
  let t := t.enableSelector 0 0
  let t := t.writeAdvice 0 0 a
  let t := t.writeAdvice 1 0 b
  let t := t.writeAdvice 2 0 (fibC a b 0)
  let t := t.enableSelector 0 1
  let t := t.writeAdvice 0 1 b
  let t := t.addCopy (1, 0) (0, 1)
  let t := t.writeAdvice 1 1 (fibC a b 0)
  let t := t.addCopy (2, 0) (1, 1)
  let t := t.writeAdvice 2 1 (fibC a b 1)
  let t := t.enableSelector 0 2
  let t := t.writeAdvice 0 2 (fibC a b 0)
  let t := t.addCopy (2, 0) (0, 2)
  let t := t.writeAdvice 1 2 (fibC a b 1)
  let t := t.addCopy (2, 1) (1, 2)
  let t := t.writeAdvice 2 2 (fibC a b 2)
  let t := t.enableSelector 0 3
  let t := t.writeAdvice 0 3 (fibC a b 1)
  let t := t.addCopy (2, 1) (0, 3)
  let t := t.writeAdvice 1 3 (fibC a b 2)
  let t := t.addCopy (2, 2) (1, 3)
  let t := t.writeAdvice 2 3 (fibC a b 3)
  let t := t.enableSelector 0 4
  let t := t.writeAdvice 0 4 (fibC a b 2)
  let t := t.addCopy (2, 2) (0, 4)
  let t := t.writeAdvice 1 4 (fibC a b 3)
  let t := t.addCopy (2, 3) (1, 4)
  let t := t.writeAdvice 2 4 (fibC a b 4)
  let t := t.enableSelector 0 5
  let t := t.writeAdvice 0 5 (fibC a b 3)
  let t := t.addCopy (2, 3) (0, 5)
  let t := t.writeAdvice 1 5 (fibC a b 4)
  let t := t.addCopy (2, 4) (1, 5)
  let t := t.writeAdvice 2 5 (fibC a b 5)
  let t := t.enableSelector 0 6
  let t := t.writeAdvice 0 6 (fibC a b 4)
  let t := t.addCopy (2, 4) (0, 6)
  let t := t.writeAdvice 1 6 (fibC a b 5)
  let t := t.addCopy (2, 5) (1, 6)
  let t := t.writeAdvice 2 6 (fibC a b 6)
  let t := t.enableSelector 0 7
  let t := t.writeAdvice 0 7 (fibC a b 5)
  let t := t.addCopy (2, 5) (0, 7)
  let t := t.writeAdvice 1 7 (fibC a b 6)
  let t := t.addCopy (2, 6) (1, 7)
  let t := t.writeAdvice 2 7 (fibC a b 7)
  t

/-- The layouter state after a successful run from known seeds: the expected
trace with 8 assigned rows. -/
def expectedState {F : Type} [CommRing F] (a b : F) : LayoutState F :=
  { trace := expectedTrace a b, nextRow := 8 }

/-- The looped recurrence step of `fibC`, with the sum commuted. -/
theorem fibC_comm {F : Type} [CommRing F] (a b : F) (n : Nat) :
    fibC a b (n + 2) = fibC a b (n + 1) + fibC a b n := by
  rw [fibC]
  ring

set_option maxHeartbeats 2000000 in
/-- C1: for every pair of field values `a` and `b` supplied as seeds, running
the circuit driver (`FiboCircuit::synthesize` with `a = Some a`,
`b = Some b`) produces a trace that the satisfiability checker accepts over
all `2^4 = 16` rows, with no gate or copy-constraint violations. -/
theorem claim1_synthesize_satisfied (F : Type) [CommRing F] [DecidableEq F] (a b : F) :
    ∃ st, runCircuit F (some a) (some b) = Except.ok st ∧
      verifyAll (fiboCS F) st.trace 16 = true := by
  refine ⟨expectedState a b, rfl, ?_⟩
  simp only [expectedState, verifyAll, Bool.and_eq_true]
  constructor
  · simp only [gatesPass, List.all_eq_true, List.mem_range]
    intro row hrow g hg
    simp only [fiboCS, FiboChip.configure, adviceColumn, newSelector, enableEquality,
      createGate, emptyCS, List.nil_append, List.mem_singleton] at hg
    subst hg
    interval_cases row <;>
      simp +decide [gateHolds, Expr.eval, MVal.mul, MVal.add, MVal.sub, MVal.neg,
        expectedTrace, fibC, Trace.empty, Trace.enableSelector,
        Trace.writeAdvice, Trace.addCopy]
  · simp +decide [copiesPass, expectedTrace, Trace.empty, Trace.enableSelector,
      Trace.writeAdvice, Trace.addCopy]

/-- C2 counterexample: with `k = 4` and seeds `a = 1`, `b = 1` over the pasta
field, the driver assigns 8 rows in total, so the number of additional rows
beyond the first is `8 - 1 = 7`, not 8 as the claim states. -/
theorem claim2_seven_additional_rows_not_eight :
    assignedRowCount (runCircuit Fp (some 1) (some 1)) = 8 ∧
      assignedRowCount (runCircuit Fp (some 1) (some 1)) - 1 ≠ 8 := by
  constructor
  · decide
  · decide

/-- C2 (amended): with `k = 4` and seeds `a = 1`, `b = 1` over the pasta
field, the driver generates 7 additional rows beyond the first (8 assigned
rows in total), the produced sequence of values in the `c` column over those
rows is `2, 3, 5, 8, 13, 21, 34, 55`, and the checker reports full
satisfaction over the `2^k` rows. -/
theorem claim2_fib_sequence_amended :
    ∃ st, runCircuit Fp (some 1) (some 1) = Except.ok st ∧
      st.nextRow = 8 ∧
      ((List.range 8).map fun r => st.trace.advice ((fiboConfig Fp).advice 2) r) =
        ([2, 3, 5, 8, 13, 21, 34, 55] : List Fp).map CellValue.assigned ∧
      verifyAll (fiboCS Fp) st.trace (2 ^ mainK) = true := by
  refine ⟨_, rfl, ?_, ?_, ?_⟩
  · decide
  · decide
  · decide

/-- C3 counterexample: the single gate created by `configure` is named
"add", not "sum". -/
theorem claim3_gate_named_add_not_sum :
    (fiboCS Fp).gates.map Gate.name = ["add"] ∧
      ¬ ∃ g ∈ (fiboCS Fp).gates, g.name = "sum" := by
  constructor
  · decide
  · decide

/-- C3 (amended): at configuration time, `configure` registers exactly three
advice columns and one selector, and adds exactly one gate, named "add",
whose constraint is `selector * (a + b - c)` where `a`, `b`, `c` are the
three advice columns queried at the current row (rotation 0). -/
theorem claim3_configure_shape_amended (F : Type) :
    (fiboCS F).numAdvice = 3 ∧ (fiboCS F).numSelectors = 1 ∧
      (fiboCS F).gates =
        [⟨"add",
          Expr.mul (Expr.selectorQ ((fiboConfig F).selector))
            (Expr.sub
              (Expr.add (Expr.adviceQ ((fiboConfig F).advice 0) 0)
                (Expr.adviceQ ((fiboConfig F).advice 1) 0))
              (Expr.adviceQ ((fiboConfig F).advice 2) 0))⟩] ∧
      (fiboConfig F).advice 0 = 0 ∧ (fiboConfig F).advice 1 = 1 ∧
      (fiboConfig F).advice 2 = 2 ∧ (fiboConfig F).selector = 0 :=
  ⟨rfl, rfl, rfl, rfl, rfl, rfl, rfl⟩

set_option maxHeartbeats 1000000 in
/-- C4: `assign_row(prev_b, prev_c)` enables the selector at its row (offset
0 of its fresh one-row region, absolute row `st.nextRow`), establishes the
copy constraints pinning the new row's first two advice cells to the cells
`prev_b` and `prev_c` (the values written there are the copied ones, not
fresh raw values), writes `c = prev_b + prev_c` into the third advice
column, and returns the handle of the newly written `c` cell. -/
theorem claim4_assign_row_behaviour (F : Type) [CommRing F] [DecidableEq F]
    (st : LayoutState F) (prevB prevC : ACell F) (vb vc : F)
    (hb : prevB.val = some vb) (hc : prevC.val = some vc)
    (hbe : prevB.col ∈ (fiboCS F).equality)
    (hce : prevC.col ∈ (fiboCS F).equality) :
    ∃ st', FiboChip.assignRow (fiboConfig F) (fiboCS F).equality st prevB prevC
        = Except.ok (st', ⟨(fiboConfig F).advice 2, st.nextRow, some (vb + vc)⟩) ∧
      st'.trace.selectors (fiboConfig F).selector st.nextRow = true ∧
      st'.trace.advice ((fiboConfig F).advice 0) st.nextRow = CellValue.assigned vb ∧
      st'.trace.advice ((fiboConfig F).advice 1) st.nextRow = CellValue.assigned vc ∧
      st'.trace.advice ((fiboConfig F).advice 2) st.nextRow = CellValue.assigned (vb + vc) ∧
      st'.trace.copies = st.trace.copies ++
        [((prevB.col, prevB.row), ((fiboConfig F).advice 0, st.nextRow)),
         ((prevC.col, prevC.row), ((fiboConfig F).advice 1, st.nextRow))] ∧
      st'.nextRow = st.nextRow + 1 := by
  obtain ⟨bc, br, bv⟩ := prevB
  obtain ⟨cc, cr, cv⟩ := prevC
  simp only at hb hc hbe hce
  subst hb hc
  have hbe' : bc ∈ [0, 1, 2] := hbe
  have hce' : cc ∈ [0, 1, 2] := hce
  fin_cases hbe' <;> fin_cases hce' <;>
    refine ⟨_, rfl, ?_, ?_, ?_, ?_, ?_, ?_⟩ <;>
      simp +decide [FiboChip.assignRow, copyAdvice, assignAdvice,
        Trace.enableSelector, Trace.writeAdvice, Trace.addCopy,
        fiboConfig, FiboChip.configure, adviceColumn, newSelector, enableEquality,
        createGate, emptyCS]

/-- C4 witness: a concrete application of `claim4_assign_row_behaviour` with
`prev_b` the cell `(1,0)` holding `1` and `prev_c` the cell `(2,0)` holding
`2`, starting from the empty layouter state over `ℚ`. -/
theorem claim4_assign_row_behaviour_witness :
    (⟨1, 0, some (1 : ℚ)⟩ : ACell ℚ).val = some 1 ∧
    (⟨2, 0, some (2 : ℚ)⟩ : ACell ℚ).val = some 2 ∧
    (⟨1, 0, some (1 : ℚ)⟩ : ACell ℚ).col ∈ (fiboCS ℚ).equality ∧
    (⟨2, 0, some (2 : ℚ)⟩ : ACell ℚ).col ∈ (fiboCS ℚ).equality ∧
    (∃ st', FiboChip.assignRow (fiboConfig ℚ) (fiboCS ℚ).equality (initState ℚ)
        ⟨1, 0, some 1⟩ ⟨2, 0, some 2⟩
        = Except.ok (st', ⟨(fiboConfig ℚ).advice 2, (initState ℚ).nextRow,
            some ((1 : ℚ) + 2)⟩) ∧
      st'.trace.selectors (fiboConfig ℚ).selector (initState ℚ).nextRow = true ∧
      st'.trace.advice ((fiboConfig ℚ).advice 0) (initState ℚ).nextRow =
        CellValue.assigned 1 ∧
      st'.trace.advice ((fiboConfig ℚ).advice 1) (initState ℚ).nextRow =
        CellValue.assigned 2 ∧
      st'.trace.advice ((fiboConfig ℚ).advice 2) (initState ℚ).nextRow =
        CellValue.assigned ((1 : ℚ) + 2) ∧
      st'.trace.copies = (initState ℚ).trace.copies ++
        [(((⟨1, 0, some (1 : ℚ)⟩ : ACell ℚ).col, (⟨1, 0, some (1 : ℚ)⟩ : ACell ℚ).row),
            ((fiboConfig ℚ).advice 0, (initState ℚ).nextRow)),
         (((⟨2, 0, some (2 : ℚ)⟩ : ACell ℚ).col, (⟨2, 0, some (2 : ℚ)⟩ : ACell ℚ).row),
            ((fiboConfig ℚ).advice 1, (initState ℚ).nextRow))] ∧
      st'.nextRow = (initState ℚ).nextRow + 1) :=
  ⟨rfl, rfl, by decide, by decide,
    claim4_assign_row_behaviour ℚ (initState ℚ) ⟨1, 0, some 1⟩ ⟨2, 0, some 2⟩
      1 2 rfl rfl (by decide) (by decide)⟩

set_option maxHeartbeats 1000000 in
/-- C5: `assign_first_row(a, b)` enables the selector at row 0 of its fresh
region (absolute row `st.nextRow`), writes `a` into the first advice column
and `b` into the second, computes `c = a + b` with field addition and writes
it into the third advice column, and returns handles to all three written
cells. -/
theorem claim5_assign_first_row_behaviour (F : Type) [CommRing F]
    (st : LayoutState F) (a b : F) :
    ∃ st', FiboChip.assignFirstRow (fiboConfig F) st (some a) (some b) =
        Except.ok (st',
          ⟨(fiboConfig F).advice 0, st.nextRow, some a⟩,
          ⟨(fiboConfig F).advice 1, st.nextRow, some b⟩,
          ⟨(fiboConfig F).advice 2, st.nextRow, some (a + b)⟩) ∧
      st'.trace.selectors (fiboConfig F).selector st.nextRow = true ∧
      st'.trace.advice ((fiboConfig F).advice 0) st.nextRow = CellValue.assigned a ∧
      st'.trace.advice ((fiboConfig F).advice 1) st.nextRow = CellValue.assigned b ∧
      st'.trace.advice ((fiboConfig F).advice 2) st.nextRow = CellValue.assigned (a + b) ∧
      st'.nextRow = st.nextRow + 1 := by
  refine ⟨_, rfl, ?_, ?_, ?_, ?_, ?_⟩ <;>
    simp +decide [FiboChip.assignFirstRow, assignAdvice,
      Trace.enableSelector, Trace.writeAdvice,
      fiboConfig, FiboChip.configure, adviceColumn, newSelector, enableEquality,
      createGate, emptyCS]

/-- C6 counterexample: running the circuit with the seeds produced by
`without_witnesses` (`a = None`, `b = None`) does not fail with the
propagated `Error::Synthesis` value (the library's missing-witness error):
it aborts with a Rust panic, raised by `Option::unwrap` on `None` inside
`assign_first_row`. -/
theorem claim6_none_seed_panics_not_synthesis :
    runCircuit ℚ none none = Except.error RunError.panic ∧
      (Except.error RunError.panic : Except RunError (LayoutState ℚ)) ≠
        Except.error RunError.synthesis := by
  refine ⟨rfl, ?_⟩
  simp

set_option maxHeartbeats 1000000 in
/-- C6 (amended): if the value for `a` or `b` is unknown (the `Option` seed
is `None`, as produced by `without_witnesses`), the run fails before
completing — no default value is silently written and no trace is returned —
but the failure is a Rust panic (`Option::unwrap` on `None`), not a
recoverable missing-witness error value returned to the caller. -/
theorem claim6_none_seed_panics_amended (F : Type) [CommRing F] (a b : Option F)
    (h : a = none ∨ b = none) :
    runCircuit F a b = Except.error RunError.panic := by
  rcases h with h | h
  · subst h
    rfl
  · subst h
    cases a with
    | none => rfl
    | some x => rfl

/-- C6 witness: the amended theorem applied to the seeds `a = Some 1`,
`b = None` over `ℚ`. -/
theorem claim6_none_seed_panics_amended_witness :
    ((some (1 : ℚ) = none ∨ (none : Option ℚ) = none)) ∧
      runCircuit ℚ (some 1) none = Except.error RunError.panic :=
  ⟨Or.inr rfl, claim6_none_seed_panics_amended ℚ (some 1) none (Or.inr rfl)⟩

set_option maxHeartbeats 1000000 in
/-- C7: after synthesis, the trace's selector column is `1` (enabled) on
every row that `synthesize` assigned — rows `0` through `7` — and `0`
everywhere else; the rows beyond the last assignment stay unassigned in
every advice column. -/
theorem claim7_selector_activation_pattern (F : Type) [CommRing F] (a b : F) :
    ∃ st, runCircuit F (some a) (some b) = Except.ok st ∧
      st.nextRow = 8 ∧
      (∀ row, st.trace.selectors (fiboConfig F).selector row = decide (row < 8)) ∧
      (∀ col row, st.trace.advice col (row + 8) = CellValue.unassigned) := by
  refine ⟨expectedState a b, rfl, rfl, ?_, ?_⟩
  · intro row
    rcases Nat.lt_or_ge row 8 with h | h
    · interval_cases row <;>
        simp +decide [expectedState, expectedTrace, Trace.empty,
          Trace.enableSelector, Trace.writeAdvice, Trace.addCopy, fiboConfig,
          FiboChip.configure, adviceColumn, newSelector, enableEquality,
          createGate, emptyCS]
    · have h0 : row ≠ 0 := by omega
      have h1 : row ≠ 1 := by omega
      have h2 : row ≠ 2 := by omega
      have h3 : row ≠ 3 := by omega
      have h4 : row ≠ 4 := by omega
      have h5 : row ≠ 5 := by omega
      have h6 : row ≠ 6 := by omega
      have h7 : row ≠ 7 := by omega
      simp [expectedState, expectedTrace, Trace.empty, Trace.enableSelector,
        Trace.writeAdvice, Trace.addCopy, fiboConfig, FiboChip.configure,
        adviceColumn, newSelector, enableEquality, createGate, emptyCS,
        h0, h1, h2, h3, h4, h5, h6, h7,
        decide_eq_false (show ¬ row < 8 by omega)]
  · intro col row
    have h0 : row + 8 ≠ 0 := by omega
    have h1 : row + 8 ≠ 1 := by omega
    have h2 : row + 8 ≠ 2 := by omega
    have h3 : row + 8 ≠ 3 := by omega
    have h4 : row + 8 ≠ 4 := by omega
    have h5 : row + 8 ≠ 5 := by omega
    have h6 : row + 8 ≠ 6 := by omega
    have h7 : row + 8 ≠ 7 := by omega
    simp [expectedState, expectedTrace, Trace.empty, Trace.enableSelector,
      Trace.writeAdvice, Trace.addCopy, h0, h1, h2, h3, h4, h5, h6, h7]

set_option maxHeartbeats 1000000 in
/-- C8: in the produced trace, for every assigned row `n ≥ 2`, the value
stored in the `c` column at row `n` is the sum of the values stored in the
`c` column at rows `n-1` and `n-2`, read directly from the stored cells. -/
theorem claim8_pairwise_sum_recurrence (F : Type) [CommRing F] (a b : F)
    (n : Nat) (h2 : 2 ≤ n) (h8 : n < 8) :
    ∃ st x y, runCircuit F (some a) (some b) = Except.ok st ∧
      st.trace.advice ((fiboConfig F).advice 2) (n - 1) = CellValue.assigned x ∧
      st.trace.advice ((fiboConfig F).advice 2) (n - 2) = CellValue.assigned y ∧
      st.trace.advice ((fiboConfig F).advice 2) n = CellValue.assigned (x + y) := by
  interval_cases n
  · exact ⟨expectedState a b, _, _, rfl, rfl, rfl,
      congrArg CellValue.assigned (fibC_comm a b 0)⟩
  · exact ⟨expectedState a b, _, _, rfl, rfl, rfl,
      congrArg CellValue.assigned (fibC_comm a b 1)⟩
  · exact ⟨expectedState a b, _, _, rfl, rfl, rfl,
      congrArg CellValue.assigned (fibC_comm a b 2)⟩
  · exact ⟨expectedState a b, _, _, rfl, rfl, rfl,
      congrArg CellValue.assigned (fibC_comm a b 3)⟩
  · exact ⟨expectedState a b, _, _, rfl, rfl, rfl,
      congrArg CellValue.assigned (fibC_comm a b 4)⟩
  · exact ⟨expectedState a b, _, _, rfl, rfl, rfl,
      congrArg CellValue.assigned (fibC_comm a b 5)⟩

/-- C8 witness: the recurrence at row `n = 2` with seeds `1, 1` over `ℚ`. -/
theorem claim8_pairwise_sum_recurrence_witness :
    (2 : Nat) ≤ 2 ∧ (2 : Nat) < 8 ∧
      (∃ st x y, runCircuit ℚ (some 1) (some 1) = Except.ok st ∧
        st.trace.advice ((fiboConfig ℚ).advice 2) (2 - 1) = CellValue.assigned x ∧
        st.trace.advice ((fiboConfig ℚ).advice 2) (2 - 2) = CellValue.assigned y ∧
        st.trace.advice ((fiboConfig ℚ).advice 2) 2 = CellValue.assigned (x + y)) :=
  ⟨by decide, by decide,
    claim8_pairwise_sum_recurrence ℚ 1 1 2 (by decide) (by decide)⟩

set_option maxHeartbeats 1000000 in
/-- C9: for any seeds, `synthesize` performs the first-row assignment once
and then iterates the loop once per element of `loopRange` (`3..10`, which
has exactly 7 elements); each call assigns exactly one fresh row, so the
run ends with exactly 8 assigned rows. Neither the loop bound nor the row
count depends on the circuit-size parameter `k` (which does not occur in
`synthesize`) or on the seed values. -/
theorem claim9_eight_rows_always (F : Type) [CommRing F] (a b : F) :
    loopRange.length = 7 ∧
      ∃ st, runCircuit F (some a) (some b) = Except.ok st ∧ st.nextRow = 8 :=
  ⟨rfl, expectedState a b, rfl, rfl⟩

/-- C10: all three declared advice columns are equality-enabled by
`configure` — every advice column index below `numAdvice = 3` is in the
permutation set, so any cell of any of the three advice columns may
participate in a copy constraint. -/
theorem claim10_all_advice_equality_enabled (F : Type) (c : Nat)
    (hc : c < (fiboCS F).numAdvice) :
    (fiboCS F).numAdvice = 3 ∧ c ∈ (fiboCS F).equality := by
  refine ⟨rfl, ?_⟩
  have h3 : c < 3 := hc
  interval_cases c <;>
    simp +decide [fiboCS, FiboChip.configure, adviceColumn, newSelector,
      enableEquality, createGate, emptyCS]

/-- C10 witness: the first advice column (index 0) over `ℚ`. -/
theorem claim10_all_advice_equality_enabled_witness :
    0 < (fiboCS ℚ).numAdvice ∧
      ((fiboCS ℚ).numAdvice = 3 ∧ 0 ∈ (fiboCS ℚ).equality) :=
  ⟨by decide, claim10_all_advice_equality_enabled ℚ 0 (by decide)⟩

end FiboSpec
